import Mathlib

/-!
Verification of the `nreporter` package (src/nreporter/nreporter.py): a
reporter object that tracks row / group / non-missing counts across a chain
of dataframe transformations.

The dataframes the reporter consumes are shallowly embedded: a dataframe is
a list of column names, a list of index-level names, and a list of rows,
each row being its index-label tuple together with one cell per column.
Cells are `Option Int`, `none` standing for a missing value (NaN).  Query
and mask expressions (pandas expression strings) are embedded as boolean
predicates on rows, carried together with their source string where the
string itself matters (step descriptions).  Counts are exact integers.

The reporter's counts table (`self._counts`, a pandas DataFrame with a
(Step, Description) row MultiIndex and a (variable, metric) column
MultiIndex, metrics `N` and `𝝙`) is embedded as a list of rows, each row a
key `(step, description)` together with one `(N, 𝝙)` pair per tracked
variable; the variable order of those pairs is the `countVars` field, the
level-0 column labels.  The delta entry is `Option Int` because pandas
`diff()` puts NaN in the first row.
-/

set_option autoImplicit false

namespace NRep

/-- A dataframe cell: `none` models a missing value (NaN). -/
abbrev Cell := Option Int

/-- One dataframe row: the values of the index levels, then one cell per
column. -/
abbrev DRow := List Int × List Cell

/-- Shallow embedding of the pandas dataframes the reporter consumes. -/
structure DataFrame where
  cols : List String
  indexNames : List String
  rows : List DRow
deriving Repr, DecidableEq, Inhabited

namespace DataFrame

/-- Embeds `df.shape[0]`: the number of rows. -/
def nRows (df : DataFrame) : Nat := df.rows.length

/-- The value row `r` contributes to the column `df[v]`: the cell at the
position of `v` among the column names, `none` when `v` is not a column. -/
def colVal (df : DataFrame) (v : String) (r : DRow) : Cell :=
  match df.cols.findIdx? (fun c => c == v) with
  | some k => r.2.getD k none
  | none => none

/-- The grouping key of row `r` for `df.groupby(v)` when `v` names exactly
one of a column or an index level: the cell of column `v` when `v` is a
column, else the index-level value when `v` is an index-level name (index
values are never missing), else `none`.  The ambiguous case — `v` both a
column and an index-level name — never reaches this function: `groupby`
raises `ValueError` there (see `ngroupsE`), so the column branch taken
first here is the unique resolution whenever this value is consulted. -/
def keyVal (df : DataFrame) (v : String) (r : DRow) : Cell :=
  match df.cols.findIdx? (fun c => c == v) with
  | some k => r.2.getD k none
  | none =>
    match df.indexNames.findIdx? (fun c => c == v) with
    | some k => some (r.1.getD k 0)
    | none => none

/-- The value of `df.groupby(v).ngroups` in the non-raising case: the
number of distinct non-missing grouping keys (pandas drops NaN groups).
The raising behaviour of `groupby` is carried by `ngroupsE`. -/
def ngroups (df : DataFrame) (v : String) : Nat :=
  ((df.rows.filterMap (df.keyVal v)).dedup).length

/-- Embeds `df[v].count()`: the number of non-missing entries of column `v`. -/
def countNonNull (df : DataFrame) (v : String) : Nat :=
  (df.rows.filterMap (df.colVal v)).length

/-- Embeds `df.query(expr)`: keep the rows satisfying the predicate `p` that
embeds the expression string.  Produces a new dataframe. -/
def query (df : DataFrame) (p : DRow → Bool) : DataFrame :=
  { df with rows := df.rows.filter p }

/-- Embeds `df.query(expr).index`: the index labels of the rows satisfying the
expression. -/
def validLabels (df : DataFrame) (p : DRow → Bool) : List (List Int) :=
  (df.rows.filter p).map Prod.fst

/-- Writing NaN into the columns `mcols` of one row
(`df.loc[invalid_rows, mask_columns] = np.nan`, restricted to one row). -/
def maskRow (df : DataFrame) (mcols : List String) (r : DRow) : DRow :=
  (r.1, List.zipWith (fun name cell => if name ∈ mcols then none else cell) df.cols r.2)

/-- The masking step of `apply_mask`: `valid_rows = df.query(expr).index`,
`invalid_rows = df.index.difference(valid_rows)`, then
`df.loc[invalid_rows, mask_columns] = np.nan`.  A row is hit exactly when
its index label does not occur among the labels of the rows satisfying the
expression. -/
def mask (df : DataFrame) (p : DRow → Bool) (mcols : List String) : DataFrame :=
  { df with rows := df.rows.map (fun r =>
      if r.1 ∈ df.validLabels p then r else df.maskRow mcols r) }

end DataFrame

/-- The data of the `ArgumentValueError` exception. -/
structure ArgumentValueError where
  opt_name : String
  opt_val : List String
  valid_vals : List String
deriving Repr, DecidableEq

/-- An exception the reporter can raise: the package's own
`ArgumentValueError`, or the pandas `ValueError` that `df.groupby(v)`
raises when `v` is both a column name and an index-level name ("... is
both an index level and a column label, which is ambiguous"). -/
inductive ReporterError where
  | argument (e : ArgumentValueError)
  | ambiguous (v : String)
deriving Repr, DecidableEq

/-- Embeds `df.groupby(v).ngroups` with its raising path: pandas raises
`ValueError` when `v` is both a column name and an index-level name;
otherwise the call returns the distinct-group count `ngroups`. -/
def DataFrame.ngroupsE (df : DataFrame) (v : String) : Except ReporterError Nat :=
  if v ∈ df.cols ∧ v ∈ df.indexNames then .error (.ambiguous v)
  else .ok (df.ngroups v)

/-- Embeds `check_arg_value(arg_name, arg_vals, valid_vals)` for a single string
value (every call site of the reporter passes a single string, which the
Python helper wraps into a one-element list before checking membership). -/
def check_arg_value (arg_name : String) (arg_val : String) (valid_vals : List String) :
    Except ArgumentValueError Unit :=
  if arg_val ∈ valid_vals then .ok () else .error ⟨arg_name, [arg_val], valid_vals⟩

/-- One counts-table entry for one tracked variable: the `N` metric and the
`𝝙` metric; the delta is `none` when the stored value is NaN. -/
abbrev CCell := Int × Option Int

/-- A counts-table row key: (Step, Description). -/
abbrev CKey := Nat × String

/-- A counts-table row. -/
abbrev CRow := CKey × List CCell

/-- The `NReporter` state: the configured grouping variables
(`self._groupby`), NaN-count columns (`self._nancols`), the level-0 column
labels of the counts table (`self._counts.columns`), the counts table
itself, and `self._current_i`. -/
structure NReporter where
  groupby : List String
  nancols : List String
  countVars : List String
  counts : List CRow
  current_i : Nat
deriving Repr, DecidableEq, Inhabited

/-- Embeds `NReporter.__init__(group_vars, nan_cols)` with list arguments: tracked
variables are `"rows"` followed by the group variables and the NaN columns,
and the counts table holds the single all-zero row `(0, "Init")`. -/
def NReporter.init (group_vars nan_cols : List String) : NReporter :=
  { groupby := group_vars
    nancols := nan_cols
    countVars := "rows" :: (group_vars ++ nan_cols)
    counts := [((0, "Init"), ("rows" :: (group_vars ++ nan_cols)).map (fun _ => ((0 : Int), some (0 : Int))))]
    current_i := 1 }

/-- Cell-list level of `_set_total`: write `val` into the `N` entry of every
position whose variable label is `v`, keeping the `𝝙` entries. -/
def setVarN (vars : List String) (cells : List CCell) (v : String) (val : Int) : List CCell :=
  List.zipWith (fun w c => if w = v then (val, c.2) else c) vars cells

/-- Embeds `self._set_total(desc, var, val)`, i.e.
`self._counts.loc[(i, desc), (var, N)] = val`: write into every row carrying
the label `key`. -/
def setTotal (vars : List String) (counts : List CRow) (key : CKey) (v : String) (val : Int) :
    List CRow :=
  counts.map (fun row => if row.1 = key then (row.1, setVarN vars row.2 v val) else row)

/-- Embeds `self._counts.loc[_irow, :] = 0`: overwrite every cell of the rows
labelled `key` with 0 when the label already exists, otherwise append a
fresh all-zero row (pandas `.loc` enlargement). -/
def setRowZero (vars : List String) (counts : List CRow) (key : CKey) : List CRow :=
  if counts.any (fun row => row.1 = key) then
    counts.map (fun row =>
      if row.1 = key then (row.1, row.2.map (fun _ => ((0 : Int), some (0 : Int)))) else row)
  else
    counts ++ [(key, vars.map (fun _ => ((0 : Int), some (0 : Int))))]

/-- The `for v in self._groupby` loop of `update`: check each group
variable against the columns and index-level names (`ArgumentValueError`
on failure), then evaluate `df.groupby(v).ngroups` (pandas `ValueError`
when the name is ambiguous) and record it. -/
def setGroupTotals (df : DataFrame) (key : CKey) (vars : List String) :
    List String → List CRow → Except ReporterError (List CRow)
  | [], acc => .ok acc
  | v :: vs, acc =>
    match check_arg_value "group_var" v (df.cols ++ df.indexNames) with
    | .ok _ =>
      match df.ngroupsE v with
      | .ok n => setGroupTotals df key vars vs (setTotal vars acc key v (n : Int))
      | .error e => .error e
    | .error e => .error (.argument e)

/-- The `for v in self._nancols` loop of `update`: check each NaN column
against the columns, then record `df[v].count()`. -/
def setNanTotals (df : DataFrame) (key : CKey) (vars : List String) :
    List String → List CRow → Except ReporterError (List CRow)
  | [], acc => .ok acc
  | v :: vs, acc =>
    match check_arg_value "nan_cols" v df.cols with
    | .ok _ => setNanTotals df key vars vs (setTotal vars acc key v (df.countNonNull v : Int))
    | .error e => .error (.argument e)

/-- One row of the delta recomputation: keep every `N` entry, set each `𝝙`
entry to the difference with the `N` entry of the previous row. -/
def deltaRow (prev cur : List CCell) : List CCell :=
  List.zipWith (fun p c => (c.1, some (c.1 - p.1))) prev cur

/-- Tail of the delta recomputation: each row diffed against its
predecessor. -/
def withDeltasGo (prev : CRow) : List CRow → List CRow
  | [] => []
  | r :: rs => (r.1, deltaRow prev.2 r.2) :: withDeltasGo r rs

/-- Embeds `self._counts.loc[:, self._delta_columns] =
self._counts.xs(N, axis=1, level=1).diff(axis=0).values`: the first row's
delta entries become NaN (`diff` of the first row), every later row's delta
entry becomes `N[i] - N[i-1]`. -/
def withDeltas : List CRow → List CRow
  | [] => []
  | r :: rs => (r.1, r.2.map (fun c => (c.1, (none : Option Int)))) :: withDeltasGo r rs

/-- Embeds `NReporter.update(df, description)`: zero/append the row
`(current_i, description)`, record the row count, the per-group distinct
group counts and the per-column non-null counts (validating each variable),
recompute all delta columns, advance the step counter and return the
dataframe unchanged. -/
def NReporter.update (r : NReporter) (df : DataFrame) (description : String) :
    Except ReporterError (NReporter × DataFrame) :=
  let key : CKey := (r.current_i, description)
  let c1 := setRowZero r.countVars r.counts key
  let c2 := setTotal r.countVars c1 key "rows" (df.nRows : Int)
  match setGroupTotals df key r.countVars r.groupby c2 with
  | .error e => .error e
  | .ok c3 =>
    match setNanTotals df key r.countVars r.nancols c3 with
    | .error e => .error e
    | .ok c4 =>
      .ok ({ r with counts := withDeltas c4, current_i := r.current_i + 1 }, df)

/-- Embeds `NReporter.apply_query(df, query_str, description)`:
`df.query(query_str).pipe(self.update, description)`, the query string
standing in for itself as the description when none is given.  `p` is the
predicate embedding the expression string `query_str`. -/
def NReporter.apply_query (r : NReporter) (df : DataFrame) (p : DRow → Bool)
    (query_str : String) (description : Option String) :
    Except ReporterError (NReporter × DataFrame) :=
  r.update (df.query p) (description.getD query_str)

/-- The `mask_columns` argument of `apply_mask`: a single string or a list
of strings. -/
inductive MaskArg where
  | scalar (s : String)
  | list (l : List String)
deriving Repr, DecidableEq

/-- A single-quoted string, as Python `repr` renders list elements. -/
def quoteStr (s : String) : String :=
  String.singleton (Char.ofNat 39) ++ s ++ String.singleton (Char.ofNat 39)

/-- How the f-string `f"{expr} (applied to {_mask_columns})"` renders the
original `mask_columns` argument. -/
def MaskArg.pyRepr : MaskArg → String
  | .scalar s => s
  | .list l => "[" ++ String.intercalate ", " (l.map quoteStr) ++ "]"

/-- The expansion step of `apply_mask`: the scalar `"*"` or `"all"` means
every column; any other scalar is wrapped into a one-element list; a list is
kept as is. -/
def MaskArg.expand (m : MaskArg) (df : DataFrame) : List String :=
  match m with
  | .scalar s => if s = "*" ∨ s = "all" then df.cols else [s]
  | .list l => l

/-- The `for c in mask_columns` validation loop of `apply_mask`. -/
def checkMaskColumns (valid : List String) : List String → Except ArgumentValueError Unit
  | [] => .ok ()
  | c :: cs =>
    match check_arg_value "mask_columns" c valid with
    | .ok _ => checkMaskColumns valid cs
    | .error e => .error e

/-- Embeds `NReporter.apply_mask(df, expr, mask_columns)`: validate the mask
columns against `list(df.columns) + ["*", "all"]`, write NaN into the mask
columns of every row whose label is not among the labels satisfying `expr`,
record the masked dataframe with `update`, and return the masked
dataframe. -/
def NReporter.apply_mask (r : NReporter) (df : DataFrame) (p : DRow → Bool)
    (expr : String) (mask_columns : MaskArg) :
    Except ReporterError (NReporter × DataFrame) :=
  let valid_columms := df.cols ++ ["*", "all"]
  let mcols := mask_columns.expand df
  match checkMaskColumns valid_columms mcols with
  | .error e => .error (.argument e)
  | .ok _ =>
    let masked := df.mask p mcols
    match r.update masked (expr ++ " (applied to " ++ mask_columns.pyRepr ++ ")") with
    | .error e => .error e
    | .ok (r2, _) => .ok (r2, masked)

/-- The Python format `"{:+d}"`: a decimal integer with an explicit sign. -/
def formatSigned (n : Int) : String :=
  if 0 ≤ n then "+" ++ toString n else "-" ++ toString (-n)

/-- One rendered row of `report()`: the description (the step level is
dropped) and, per tracked variable, the `N` entry rendered as a decimal
integer and the `𝝙` entry rendered with `"{:+d}"`.  `none` when a delta
entry is NaN, where `astype(int)` would fail. -/
def renderRow (row : CRow) : Option (String × List (String × String)) :=
  (row.2.mapM (fun (c : CCell) => c.2.map (fun d => (toString c.1, formatSigned d)))).map
    (fun cells => (row.1.2, cells))

/-- Embeds `NReporter.report()`: drop the Init row (`iloc[1:, :]`), drop the step
index level, convert to int and format, delta columns with `"{:+d}"`. -/
def NReporter.report (r : NReporter) : Option (List (String × List (String × String))) :=
  (r.counts.drop 1).mapM renderRow

/-- The level-1 column structure of the counts table: for each tracked
variable, in order, its `N` column then its `𝝙` column
(`pd.MultiIndex.from_product([[rows] + group_vars + nan_cols, [N, 𝝙]])`). -/
def NReporter.columns (r : NReporter) : List (String × String) :=
  r.countVars.flatMap (fun v => [(v, "N"), (v, "𝝙")])

/-- The `N` entry stored at row position `j`, variable position `k` of a
counts table. -/
def nEntry (counts : List CRow) (j k : Nat) : Int :=
  (((counts.getD j default).2).getD k (0, none)).1

/-- The `𝝙` entry stored at row position `j`, variable position `k` of a
counts table (`none` = NaN). -/
def dEntry (counts : List CRow) (j k : Nat) : Option Int :=
  (((counts.getD j default).2).getD k (0, none)).2

section ListLemmas

variable {α β γ : Type}

lemma zipWith_getD (f : α → β → γ) (as : List α) (bs : List β) (k : Nat)
    (da : α) (db : β) (dc : γ) (ha : k < as.length) (hb : k < bs.length) :
    (List.zipWith f as bs).getD k dc = f (as.getD k da) (bs.getD k db) := by
  induction as generalizing bs k with
  | nil => simp at ha
  | cons a as ih =>
    cases bs with
    | nil => simp at hb
    | cons b bs =>
      cases k with
      | zero => simp
      | succ k => simpa using ih bs k (by simpa using ha) (by simpa using hb)

lemma map_getD (f : α → β) (l : List α) (k : Nat) (da : α) (db : β) (h : k < l.length) :
    (l.map f).getD k db = f (l.getD k da) := by
  induction l generalizing k with
  | nil => simp at h
  | cons a l ih =>
    cases k with
    | zero => simp
    | succ k => simpa using ih k (by simpa using h)

end ListLemmas

@[simp] lemma withDeltasGo_length (prev : CRow) (rs : List CRow) :
    (withDeltasGo prev rs).length = rs.length := by
  induction rs generalizing prev with
  | nil => rfl
  | cons r rs ih => simp [withDeltasGo, ih]

@[simp] lemma withDeltas_length (l : List CRow) : (withDeltas l).length = l.length := by
  cases l with
  | nil => rfl
  | cons r rs => simp [withDeltas]

lemma withDeltasGo_getD (rs : List CRow) (prev : CRow) (j : Nat) (h : j < rs.length) :
    (withDeltasGo prev rs).getD j default =
      ((rs.getD j default).1,
        deltaRow ((prev :: rs).getD j default).2 ((rs.getD j default).2) ) := by
  induction rs generalizing prev j with
  | nil => simp at h
  | cons r rs ih =>
    cases j with
    | zero => simp [withDeltasGo]
    | succ j => simpa [withDeltasGo] using ih r j (by simpa using h)

lemma withDeltas_getD_zero (l : List CRow) (h : 0 < l.length) :
    (withDeltas l).getD 0 default =
      ((l.getD 0 default).1, (l.getD 0 default).2.map (fun c => (c.1, (none : Option Int)))) := by
  cases l with
  | nil => simp at h
  | cons r rs => simp [withDeltas]

lemma withDeltas_getD_succ (l : List CRow) (j : Nat) (h : j + 1 < l.length) :
    (withDeltas l).getD (j + 1) default =
      ((l.getD (j + 1) default).1,
        deltaRow (l.getD j default).2 (l.getD (j + 1) default).2) := by
  cases l with
  | nil => simp at h
  | cons r rs => simpa [withDeltas] using withDeltasGo_getD rs r j (by simpa using h)

/-- After the delta recomputation, the `𝝙` entry of each row past the first
is the difference of that row's `N` entry and the preceding row's `N`
entry. -/
lemma withDeltas_delta_spec (l : List CRow) (j k : Nat)
    (hj : j + 1 < (withDeltas l).length)
    (hk1 : k < ((withDeltas l).getD j default).2.length)
    (hk2 : k < ((withDeltas l).getD (j + 1) default).2.length) :
    dEntry (withDeltas l) (j + 1) k =
      some (nEntry (withDeltas l) (j + 1) k - nEntry (withDeltas l) j k) := by
  rw [withDeltas_length] at hj
  have hsucc := withDeltas_getD_succ l j hj
  have hk2' : k < (deltaRow (l.getD j default).2 (l.getD (j + 1) default).2).length := by
    rw [hsucc] at hk2; exact hk2
  have hkb : k < (l.getD j default).2.length ∧ k < (l.getD (j + 1) default).2.length := by
    constructor <;> [skip; skip] <;>
      · have := hk2'
        simp only [deltaRow, List.length_zipWith, lt_min_iff] at this
        first
          | exact this.1
          | exact this.2
  unfold dEntry nEntry
  rw [hsucc]
  have hzip := zipWith_getD (fun p c => (c.1, some (c.1 - p.1)))
      (l.getD j default).2 (l.getD (j + 1) default).2 k (0, none) (0, none) (0, none)
      hkb.1 hkb.2
  simp only [deltaRow]
  rw [hzip]
  -- it remains to show the previous row's stored N entry is the original one
  cases j with
  | zero =>
    have h0 := withDeltas_getD_zero l (by omega)
    rw [h0]
    have hk1' : k < ((l.getD 0 default).2.map (fun c => (c.1, (none : Option Int)))).length := by
      rw [h0] at hk1; exact hk1
    rw [map_getD (fun c => (c.1, (none : Option Int))) (l.getD 0 default).2 k (0, none) (0, none)
      (by simpa using hk1')]
  | succ j' =>
    have hs := withDeltas_getD_succ l j' (by omega)
    rw [hs]
    have hk1' : k < (deltaRow (l.getD j' default).2 (l.getD (j' + 1) default).2).length := by
      rw [hs] at hk1; exact hk1
    have hkb' : k < (l.getD j' default).2.length ∧ k < (l.getD (j' + 1) default).2.length := by
      simp only [deltaRow, List.length_zipWith, lt_min_iff] at hk1'
      exact hk1'
    simp only [deltaRow]
    rw [zipWith_getD (fun p c => (c.1, some (c.1 - p.1)))
      (l.getD j' default).2 (l.getD (j' + 1) default).2 k (0, none) (0, none) (0, none)
      hkb'.1 hkb'.2]

/-- A successful `update` leaves the counts table in delta-recomputed form. -/
lemma update_counts_eq (r r' : NReporter) (df df' : DataFrame) (description : String)
    (h : r.update df description = .ok (r', df')) :
    ∃ c4, r'.counts = withDeltas c4 := by
  dsimp only [NReporter.update] at h
  cases hg : setGroupTotals df (r.current_i, description) r.countVars r.groupby
      (setTotal r.countVars (setRowZero r.countVars r.counts (r.current_i, description))
        (r.current_i, description) "rows" (df.nRows : Int)) with
  | error e => rw [hg] at h; exact absurd h (by simp)
  | ok c3 =>
    rw [hg] at h
    dsimp only at h
    cases hn : setNanTotals df (r.current_i, description) r.countVars r.nancols c3 with
    | error e => rw [hn] at h; exact absurd h (by simp)
    | ok c4 =>
      rw [hn] at h
      simp only [Except.ok.injEq, Prod.mk.injEq] at h
      exact ⟨c4, by rw [← h.1]⟩

/-- C1: after every successful `update`, the `𝝙` entry of every tracked
variable at every counts-table row `j + 1 ≥ 1` equals that row's `N` entry
minus the `N` entry of the immediately preceding row. -/
theorem update_delta_invariant (r r' : NReporter) (df df' : DataFrame) (description : String)
    (h : r.update df description = .ok (r', df')) (j k : Nat)
    (hj : j + 1 < r'.counts.length)
    (hk1 : k < ((r'.counts.getD j default).2).length)
    (hk2 : k < ((r'.counts.getD (j + 1) default).2).length) :
    dEntry r'.counts (j + 1) k = some (nEntry r'.counts (j + 1) k - nEntry r'.counts j k) := by
  obtain ⟨c4, hc⟩ := update_counts_eq r r' df df' description h
  rw [hc] at hj hk1 hk2 ⊢
  exact withDeltas_delta_spec c4 j k hj hk1 hk2

/-- Iterated `_set_total` at the cell-list level: one `(variable, value)`
write after the other. -/
def setVarsN (vars : List String) (cells : List CCell) (ps : List (String × Int)) : List CCell :=
  ps.foldl (fun acc p => setVarN vars acc p.1 p.2) cells

lemma setVarN_cons (w : String) (vars : List String) (c : CCell) (cells : List CCell)
    (v : String) (val : Int) :
    setVarN (w :: vars) (c :: cells) v val =
      (if w = v then (val, c.2) else c) :: setVarN vars cells v val := rfl

lemma setVarsN_cons_pair (vars : List String) (cells : List CCell) (p : String × Int)
    (ps : List (String × Int)) :
    setVarsN vars cells (p :: ps) = setVarsN vars (setVarN vars cells p.1 p.2) ps := rfl

lemma setVarsN_append (vars : List String) (cells : List CCell)
    (ps qs : List (String × Int)) :
    setVarsN vars (setVarsN vars cells ps) qs = setVarsN vars cells (ps ++ qs) := by
  simp [setVarsN, List.foldl_append]

lemma setVarsN_cons (w : String) (vars : List String) (c : CCell) (cells : List CCell)
    (ps : List (String × Int)) :
    setVarsN (w :: vars) (c :: cells) ps =
      (ps.foldl (fun acc p => if w = p.1 then (p.2, acc.2) else acc) c) :: setVarsN vars cells ps := by
  induction ps generalizing c cells with
  | nil => rfl
  | cons p ps ih =>
    rw [setVarsN_cons_pair, setVarN_cons, ih, List.foldl_cons, setVarsN_cons_pair]

lemma foldl_setHead_miss (w : String) (c : CCell) (ps : List (String × Int))
    (h : ∀ p ∈ ps, w ≠ p.1) :
    ps.foldl (fun acc p => if w = p.1 then (p.2, acc.2) else acc) c = c := by
  induction ps generalizing c with
  | nil => rfl
  | cons p ps ih =>
    rw [List.foldl_cons, if_neg (h p (by simp))]
    exact ih c (fun q hq => h q (by simp [hq]))

lemma setVarN_not_mem (vars : List String) (cells : List CCell) (v : String) (val : Int)
    (hlen : cells.length = vars.length) (hv : v ∉ vars) :
    setVarN vars cells v val = cells := by
  induction vars generalizing cells with
  | nil =>
    cases cells with
    | nil => rfl
    | cons c cells => simp at hlen
  | cons w vars ih =>
    cases cells with
    | nil => simp at hlen
    | cons c cells =>
      have hwv : ¬ (w = v) := fun hh => hv (by simp [hh])
      rw [setVarN_cons, if_neg hwv,
        ih cells (by simpa using hlen) (fun hh => hv (by simp [hh]))]

/-- Writing each variable of `vars` once, in order, into the all-zero cell
list produces exactly the written values, with the zero deltas kept. -/
lemma setVarsN_zip (vars : List String) (vals : List Int)
    (hnd : vars.Nodup) (hlen : vals.length = vars.length) :
    setVarsN vars (vars.map (fun _ => ((0 : Int), some (0 : Int)))) (vars.zip vals) =
      vals.map (fun n => (n, some (0 : Int))) := by
  induction vars generalizing vals with
  | nil =>
    cases vals with
    | nil => rfl
    | cons n vals => simp at hlen
  | cons w vars ih =>
    cases vals with
    | nil => simp at hlen
    | cons n vals =>
      have hw : w ∉ vars := (List.nodup_cons.mp hnd).1
      have hmiss : ∀ p ∈ vars.zip vals, w ≠ p.1 := by
        intro p hp hh
        obtain ⟨a, b⟩ := p
        exact hw (hh ▸ (List.of_mem_zip hp).1)
      rw [List.zip_cons_cons, List.map_cons, List.map_cons, setVarsN_cons]
      congr 1
      · rw [List.foldl_cons]
        have hstep : (if w = w then ((n : Int), (((0 : Int), some (0 : Int))).2)
            else ((0 : Int), some (0 : Int))) = ((n : Int), some (0 : Int)) := by simp
        simp only [hstep]
        exact foldl_setHead_miss w ((n : Int), some (0 : Int)) (vars.zip vals) hmiss
      · rw [setVarsN_cons_pair]
        rw [setVarN_not_mem vars (vars.map (fun _ => ((0 : Int), some (0 : Int)))) w n
          (by simp) hw]
        exact ih vals (List.nodup_cons.mp hnd).2 (by simpa using hlen)

lemma setRowZero_fresh (vars : List String) (counts : List CRow) (key : CKey)
    (hfresh : ∀ row ∈ counts, row.1 ≠ key) :
    setRowZero vars counts key =
      counts ++ [(key, vars.map (fun _ => ((0 : Int), some (0 : Int))))] := by
  unfold setRowZero
  rw [if_neg]
  simp only [List.any_eq_true, decide_eq_true_eq, not_exists, not_and]
  intro row hr
  exact hfresh row hr

lemma setTotal_append_fresh (vars : List String) (counts : List CRow) (key : CKey)
    (cells : List CCell) (v : String) (val : Int)
    (hfresh : ∀ row ∈ counts, row.1 ≠ key) :
    setTotal vars (counts ++ [(key, cells)]) key v val =
      counts ++ [(key, setVarN vars cells v val)] := by
  unfold setTotal
  rw [List.map_append]
  congr 1
  · conv_rhs => rw [← List.map_id counts]
    exact List.map_congr_left (fun row hr => by rw [if_neg (hfresh row hr)]; rfl)
  · simp

lemma setGroupTotals_cons (df : DataFrame) (key : CKey) (vars : List String)
    (v : String) (vs : List String) (acc : List CRow) :
    setGroupTotals df key vars (v :: vs) acc =
      if v ∈ df.cols ++ df.indexNames then
        (if v ∈ df.cols ∧ v ∈ df.indexNames then .error (.ambiguous v)
          else setGroupTotals df key vars vs (setTotal vars acc key v (df.ngroups v : Int)))
      else .error (.argument ⟨"group_var", [v], df.cols ++ df.indexNames⟩) := by
  by_cases hv : v ∈ df.cols ++ df.indexNames
  · have hc : check_arg_value "group_var" v (df.cols ++ df.indexNames) = .ok () := by
      unfold check_arg_value; rw [if_pos hv]
    rw [if_pos hv]
    by_cases hamb : v ∈ df.cols ∧ v ∈ df.indexNames
    · have hn : df.ngroupsE v = .error (.ambiguous v) := by
        unfold DataFrame.ngroupsE; rw [if_pos hamb]
      rw [if_pos hamb]
      simp only [setGroupTotals, hc, hn]
    · have hn : df.ngroupsE v = .ok (df.ngroups v) := by
        unfold DataFrame.ngroupsE; rw [if_neg hamb]
      rw [if_neg hamb]
      simp only [setGroupTotals, hc, hn]
  · have hc : check_arg_value "group_var" v (df.cols ++ df.indexNames) =
        .error ⟨"group_var", [v], df.cols ++ df.indexNames⟩ := by
      unfold check_arg_value; rw [if_neg hv]
    rw [if_neg hv]
    simp only [setGroupTotals, hc]

lemma setNanTotals_cons (df : DataFrame) (key : CKey) (vars : List String)
    (v : String) (vs : List String) (acc : List CRow) :
    setNanTotals df key vars (v :: vs) acc =
      if v ∈ df.cols then
        setNanTotals df key vars vs (setTotal vars acc key v (df.countNonNull v : Int))
      else .error (.argument ⟨"nan_cols", [v], df.cols⟩) := by
  by_cases hv : v ∈ df.cols
  · have hc : check_arg_value "nan_cols" v df.cols = .ok () := by
      unfold check_arg_value; rw [if_pos hv]
    rw [if_pos hv]
    simp only [setNanTotals, hc]
  · have hc : check_arg_value "nan_cols" v df.cols = .error ⟨"nan_cols", [v], df.cols⟩ := by
      unfold check_arg_value; rw [if_neg hv]
    rw [if_neg hv]
    simp only [setNanTotals, hc]

lemma setGroupTotals_ok (df : DataFrame) (key : CKey) (vars : List String)
    (vs : List String) (counts : List CRow) (cells : List CCell)
    (hfresh : ∀ row ∈ counts, row.1 ≠ key)
    (hvalid : ∀ v ∈ vs, v ∈ df.cols ++ df.indexNames)
    (hamb : ∀ v ∈ vs, ¬ (v ∈ df.cols ∧ v ∈ df.indexNames)) :
    setGroupTotals df key vars vs (counts ++ [(key, cells)]) =
      .ok (counts ++ [(key, setVarsN vars cells (vs.map (fun v => (v, (df.ngroups v : Int)))))]) := by
  induction vs generalizing cells with
  | nil => rfl
  | cons v vs ih =>
    rw [setGroupTotals_cons, if_pos (hvalid v (by simp)), if_neg (hamb v (by simp))]
    rw [setTotal_append_fresh vars counts key cells v _ hfresh]
    rw [ih (setVarN vars cells v _) (fun w hw => hvalid w (by simp [hw]))
      (fun w hw => hamb w (by simp [hw]))]
    rw [List.map_cons, setVarsN_cons_pair]

lemma setNanTotals_ok (df : DataFrame) (key : CKey) (vars : List String)
    (vs : List String) (counts : List CRow) (cells : List CCell)
    (hfresh : ∀ row ∈ counts, row.1 ≠ key)
    (hvalid : ∀ v ∈ vs, v ∈ df.cols) :
    setNanTotals df key vars vs (counts ++ [(key, cells)]) =
      .ok (counts ++ [(key, setVarsN vars cells (vs.map (fun v => (v, (df.countNonNull v : Int)))))]) := by
  induction vs generalizing cells with
  | nil => rfl
  | cons v vs ih =>
    rw [setNanTotals_cons, if_pos (hvalid v (by simp))]
    rw [setTotal_append_fresh vars counts key cells v _ hfresh]
    rw [ih (setVarN vars cells v _) (fun w hw => hvalid w (by simp [hw]))]
    rw [List.map_cons, setVarsN_cons_pair]

/-- The `N` values the spec prescribes for one `update(df, ...)` call: the
row count, then one distinct-group count per group variable, then one
non-null count per NaN column. -/
def expectedCounts (df : DataFrame) (G C : List String) : List Int :=
  (df.nRows : Int) ::
    (G.map (fun v => (df.ngroups v : Int)) ++ C.map (fun v => (df.countNonNull v : Int)))

/-- The appended counts-table row before the delta recomputation: the
prescribed `N` entries, with the zero deltas of the freshly zeroed row. -/
def expectedNewRow (df : DataFrame) (G C : List String) : List CCell :=
  (expectedCounts df G C).map (fun n => (n, some (0 : Int)))

lemma zip_map_self {α β : Type} (l : List α) (f : α → β) :
    l.zip (l.map f) = l.map (fun a => (a, f a)) := by
  induction l with
  | nil => rfl
  | cons a l ih => simp [ih]

/-- C2 (amended): when every configured group variable is a column or an
index-level name of `df` — but not both at once, which would make
`df.groupby(v)` raise `ValueError` — and every configured NaN column is a
column of `df`, `update` appends exactly one new row — `N` entries: the
row count for `"rows"`, the distinct-group count for each group variable,
the non-null count for each NaN column — and then recomputes all delta
columns. -/
theorem update_appends_expected_row (r : NReporter) (df : DataFrame) (description : String)
    (hv : r.countVars = "rows" :: (r.groupby ++ r.nancols))
    (hnd : r.countVars.Nodup)
    (hfresh : ∀ row ∈ r.counts, row.1 ≠ (r.current_i, description))
    (hg : ∀ v ∈ r.groupby, v ∈ df.cols ++ df.indexNames)
    (hamb : ∀ v ∈ r.groupby, ¬ (v ∈ df.cols ∧ v ∈ df.indexNames))
    (hn : ∀ v ∈ r.nancols, v ∈ df.cols) :
    r.update df description = .ok
      ({ r with
          counts := withDeltas (r.counts ++
            [((r.current_i, description), expectedNewRow df r.groupby r.nancols)]),
          current_i := r.current_i + 1 }, df) := by
  have hcells :
      setVarsN r.countVars
        (setVarsN r.countVars
          (setVarN r.countVars (r.countVars.map (fun _ => ((0 : Int), some (0 : Int))))
            "rows" (df.nRows : Int))
          (r.groupby.map (fun v => (v, (df.ngroups v : Int)))))
        (r.nancols.map (fun v => (v, (df.countNonNull v : Int)))) =
      expectedNewRow df r.groupby r.nancols := by
    rw [show setVarN r.countVars (r.countVars.map (fun _ => ((0 : Int), some (0 : Int))))
          "rows" (df.nRows : Int) =
        setVarsN r.countVars (r.countVars.map (fun _ => ((0 : Int), some (0 : Int))))
          [("rows", (df.nRows : Int))] from rfl]
    rw [setVarsN_append, setVarsN_append]
    have hzip : ("rows", (df.nRows : Int)) ::
        (r.groupby.map (fun v => (v, (df.ngroups v : Int))) ++
          r.nancols.map (fun v => (v, (df.countNonNull v : Int)))) =
        r.countVars.zip (expectedCounts df r.groupby r.nancols) := by
      rw [hv]
      unfold expectedCounts
      rw [List.zip_cons_cons]
      rw [List.zip_append (by simp)]
      rw [zip_map_self, zip_map_self]
    rw [List.singleton_append, hzip]
    rw [setVarsN_zip r.countVars (expectedCounts df r.groupby r.nancols) hnd
      (by rw [hv]; simp [expectedCounts])]
    rfl
  dsimp only [NReporter.update]
  rw [setRowZero_fresh r.countVars r.counts (r.current_i, description) hfresh]
  rw [setTotal_append_fresh r.countVars r.counts (r.current_i, description) _ "rows"
    (df.nRows : Int) hfresh]
  rw [show setVarN r.countVars (r.countVars.map (fun _ => ((0 : Int), some (0 : Int))))
        "rows" (df.nRows : Int) =
      setVarsN r.countVars (r.countVars.map (fun _ => ((0 : Int), some (0 : Int))))
        [("rows", (df.nRows : Int))] from rfl] at hcells ⊢
  rw [setGroupTotals_ok df (r.current_i, description) r.countVars r.groupby r.counts _
    hfresh hg hamb]
  dsimp only
  rw [setNanTotals_ok df (r.current_i, description) r.countVars r.nancols r.counts _
    hfresh hn]
  dsimp only
  rw [hcells]

/-- A dataframe used to instantiate the theorems on concrete data. -/
def wdf1 : DataFrame :=
  ⟨["a", "b"], ["idx"],
    [([0], [some 1, some 10]), ([1], [none, some 20]), ([2], [some 1, none])]⟩

/-- A freshly constructed reporter used to instantiate the theorems. -/
def wr0 : NReporter := NReporter.init ["a"] ["b"]

/-- The reporter state after one `update` of `wr0` with `wdf1`. -/
def wr1 : NReporter := (((wr0.update wdf1 "s1").toOption).getD (wr0, wdf1)).1

theorem update_appends_expected_row_witness :
    (wr0.countVars = "rows" :: (wr0.groupby ++ wr0.nancols)) ∧ wr0.countVars.Nodup ∧
    (∀ row ∈ wr0.counts, row.1 ≠ (wr0.current_i, "s1")) ∧
    (∀ v ∈ wr0.groupby, v ∈ wdf1.cols ++ wdf1.indexNames) ∧
    (∀ v ∈ wr0.groupby, ¬ (v ∈ wdf1.cols ∧ v ∈ wdf1.indexNames)) ∧
    (∀ v ∈ wr0.nancols, v ∈ wdf1.cols) ∧
    wr0.update wdf1 "s1" = .ok
      ({ wr0 with
          counts := withDeltas (wr0.counts ++
            [((wr0.current_i, "s1"), expectedNewRow wdf1 wr0.groupby wr0.nancols)]),
          current_i := wr0.current_i + 1 }, wdf1) :=
  ⟨by decide, by decide, by decide, by decide, by decide, by decide,
    update_appends_expected_row wr0 wdf1 "s1" (by decide) (by decide) (by decide)
      (by decide) (by decide) (by decide)⟩

/-- C2 (counterexample to the claim as stated): a dataframe whose column
names and index-level names both contain the group variable `"a"`
satisfies the claim precondition (the variable is among the columns/index
names), yet `update` appends nothing: `df.groupby("a")` raises the pandas
ambiguity `ValueError`. -/
theorem update_appends_counterexample :
    (NReporter.init ["a"] []).update ⟨["a"], ["a"], [([1], [some 2])]⟩ "s" =
      .error (.ambiguous "a") ∧
    "a" ∈ (⟨["a"], ["a"], [([1], [some 2])]⟩ : DataFrame).cols ∧
    "a" ∈ (⟨["a"], ["a"], [([1], [some 2])]⟩ : DataFrame).indexNames :=
  ⟨rfl, by decide, by decide⟩

lemma setGroupTotals_ok_iff (df : DataFrame) (key : CKey) (vars : List String)
    (vs : List String) (acc : List CRow) :
    (∃ out, setGroupTotals df key vars vs acc = .ok out) ↔
      ∀ v ∈ vs, (v ∈ df.cols ++ df.indexNames) ∧ ¬ (v ∈ df.cols ∧ v ∈ df.indexNames) := by
  induction vs generalizing acc with
  | nil => simp [setGroupTotals]
  | cons v vs ih =>
    rw [setGroupTotals_cons]
    by_cases hv : v ∈ df.cols ++ df.indexNames
    · rw [if_pos hv]
      by_cases hamb : v ∈ df.cols ∧ v ∈ df.indexNames
      · rw [if_pos hamb]
        constructor
        · rintro ⟨out, hout⟩
          exact absurd hout (by simp)
        · intro h
          exact absurd hamb (h v (by simp)).2
      · rw [if_neg hamb, ih]
        constructor
        · exact fun h => List.forall_mem_cons.mpr ⟨⟨hv, hamb⟩, h⟩
        · exact fun h => (List.forall_mem_cons.mp h).2
    · rw [if_neg hv]
      constructor
      · rintro ⟨out, hout⟩
        exact absurd hout (by simp)
      · intro h
        exact absurd (h v (by simp)).1 hv

lemma setNanTotals_ok_iff (df : DataFrame) (key : CKey) (vars : List String)
    (vs : List String) (acc : List CRow) :
    (∃ out, setNanTotals df key vars vs acc = .ok out) ↔
      ∀ v ∈ vs, v ∈ df.cols := by
  induction vs generalizing acc with
  | nil => simp [setNanTotals]
  | cons v vs ih =>
    rw [setNanTotals_cons]
    by_cases hv : v ∈ df.cols
    · rw [if_pos hv, ih]
      constructor
      · exact fun h => List.forall_mem_cons.mpr ⟨hv, h⟩
      · exact fun h => (List.forall_mem_cons.mp h).2
    · rw [if_neg hv]
      constructor
      · rintro ⟨out, hout⟩
        exact absurd hout (by simp)
      · intro h
        exact absurd (h v (by simp)) hv

lemma update_ok_iff (r : NReporter) (df : DataFrame) (description : String) :
    (∃ out, r.update df description = .ok out) ↔
      (∀ v ∈ r.groupby, (v ∈ df.cols ++ df.indexNames) ∧ ¬ (v ∈ df.cols ∧ v ∈ df.indexNames)) ∧
        (∀ v ∈ r.nancols, v ∈ df.cols) := by
  dsimp only [NReporter.update]
  cases hg : setGroupTotals df (r.current_i, description) r.countVars r.groupby
      (setTotal r.countVars (setRowZero r.countVars r.counts (r.current_i, description))
        (r.current_i, description) "rows" (df.nRows : Int)) with
  | error e =>
    have hng : ¬ ∀ v ∈ r.groupby,
        (v ∈ df.cols ++ df.indexNames) ∧ ¬ (v ∈ df.cols ∧ v ∈ df.indexNames) := by
      rw [← setGroupTotals_ok_iff df (r.current_i, description) r.countVars r.groupby
        (setTotal r.countVars (setRowZero r.countVars r.counts (r.current_i, description))
          (r.current_i, description) "rows" (df.nRows : Int))]
      rw [hg]
      simp
    dsimp only
    constructor
    · rintro ⟨out, hout⟩
      exact absurd hout (by simp)
    · rintro ⟨hA, _⟩
      exact absurd hA hng
  | ok c3 =>
    have hyg : ∀ v ∈ r.groupby,
        (v ∈ df.cols ++ df.indexNames) ∧ ¬ (v ∈ df.cols ∧ v ∈ df.indexNames) := by
      rw [← setGroupTotals_ok_iff df (r.current_i, description) r.countVars r.groupby
        (setTotal r.countVars (setRowZero r.countVars r.counts (r.current_i, description))
          (r.current_i, description) "rows" (df.nRows : Int))]
      exact ⟨c3, hg⟩
    dsimp only
    cases hn : setNanTotals df (r.current_i, description) r.countVars r.nancols c3 with
    | error e =>
      have hnn : ¬ ∀ v ∈ r.nancols, v ∈ df.cols := by
        rw [← setNanTotals_ok_iff df (r.current_i, description) r.countVars r.nancols c3]
        rw [hn]
        simp
      dsimp only
      constructor
      · rintro ⟨out, hout⟩
        exact absurd hout (by simp)
      · rintro ⟨_, hB⟩
        exact absurd hB hnn
    | ok c4 =>
      have hyn : ∀ v ∈ r.nancols, v ∈ df.cols := by
        rw [← setNanTotals_ok_iff df (r.current_i, description) r.countVars r.nancols c3]
        exact ⟨c4, hn⟩
      dsimp only
      constructor
      · intro _
        exact ⟨hyg, hyn⟩
      · intro _
        exact ⟨({ r with counts := withDeltas c4, current_i := r.current_i + 1 }, df), rfl⟩

lemma setGroupTotals_error_argument (df : DataFrame) (key : CKey) (vars : List String) :
    ∀ (vs : List String) (acc : List CRow) (a : ArgumentValueError),
      setGroupTotals df key vars vs acc = .error (.argument a) →
      ∃ v ∈ vs, v ∉ df.cols ++ df.indexNames := by
  intro vs
  induction vs with
  | nil =>
    intro acc a h
    exact absurd h (by simp [setGroupTotals])
  | cons v vs ih =>
    intro acc a h
    rw [setGroupTotals_cons] at h
    by_cases hv : v ∈ df.cols ++ df.indexNames
    · rw [if_pos hv] at h
      by_cases hamb : v ∈ df.cols ∧ v ∈ df.indexNames
      · rw [if_pos hamb] at h
        simp at h
      · rw [if_neg hamb] at h
        obtain ⟨w, hw, hnw⟩ := ih _ a h
        exact ⟨w, by simp [hw], hnw⟩
    · exact ⟨v, by simp, hv⟩

lemma setGroupTotals_error_ambiguous (df : DataFrame) (key : CKey) (vars : List String) :
    ∀ (vs : List String) (acc : List CRow) (w : String),
      setGroupTotals df key vars vs acc = .error (.ambiguous w) →
      ∃ v ∈ vs, v ∈ df.cols ∧ v ∈ df.indexNames := by
  intro vs
  induction vs with
  | nil =>
    intro acc w h
    exact absurd h (by simp [setGroupTotals])
  | cons v vs ih =>
    intro acc w h
    rw [setGroupTotals_cons] at h
    by_cases hv : v ∈ df.cols ++ df.indexNames
    · rw [if_pos hv] at h
      by_cases hamb : v ∈ df.cols ∧ v ∈ df.indexNames
      · exact ⟨v, by simp, hamb⟩
      · rw [if_neg hamb] at h
        obtain ⟨u, hu, hau⟩ := ih _ w h
        exact ⟨u, by simp [hu], hau⟩
    · rw [if_neg hv] at h
      simp at h

lemma setNanTotals_error_argument (df : DataFrame) (key : CKey) (vars : List String) :
    ∀ (vs : List String) (acc : List CRow) (a : ArgumentValueError),
      setNanTotals df key vars vs acc = .error (.argument a) →
      ∃ v ∈ vs, v ∉ df.cols := by
  intro vs
  induction vs with
  | nil =>
    intro acc a h
    exact absurd h (by simp [setNanTotals])
  | cons v vs ih =>
    intro acc a h
    rw [setNanTotals_cons] at h
    by_cases hv : v ∈ df.cols
    · rw [if_pos hv] at h
      obtain ⟨w, hw, hnw⟩ := ih _ a h
      exact ⟨w, by simp [hw], hnw⟩
    · exact ⟨v, by simp, hv⟩

lemma setNanTotals_error_ambiguous (df : DataFrame) (key : CKey) (vars : List String) :
    ∀ (vs : List String) (acc : List CRow) (w : String),
      setNanTotals df key vars vs acc = .error (.ambiguous w) → False := by
  intro vs
  induction vs with
  | nil =>
    intro acc w h
    exact absurd h (by simp [setNanTotals])
  | cons v vs ih =>
    intro acc w h
    rw [setNanTotals_cons] at h
    by_cases hv : v ∈ df.cols
    · rw [if_pos hv] at h
      exact ih _ w h
    · rw [if_neg hv] at h
      simp at h

lemma update_error_argument (r : NReporter) (df : DataFrame) (description : String)
    (a : ArgumentValueError) (h : r.update df description = .error (.argument a)) :
    (∃ v ∈ r.groupby, v ∉ df.cols ++ df.indexNames) ∨ (∃ v ∈ r.nancols, v ∉ df.cols) := by
  dsimp only [NReporter.update] at h
  cases hg : setGroupTotals df (r.current_i, description) r.countVars r.groupby
      (setTotal r.countVars (setRowZero r.countVars r.counts (r.current_i, description))
        (r.current_i, description) "rows" (df.nRows : Int)) with
  | error e =>
    rw [hg] at h
    cases e with
    | argument a2 =>
      exact Or.inl (setGroupTotals_error_argument df (r.current_i, description) r.countVars
        r.groupby _ a2 hg)
    | ambiguous w =>
      simp at h
  | ok c3 =>
    rw [hg] at h
    dsimp only at h
    cases hn : setNanTotals df (r.current_i, description) r.countVars r.nancols c3 with
    | error e =>
      rw [hn] at h
      cases e with
      | argument a2 =>
        exact Or.inr (setNanTotals_error_argument df (r.current_i, description) r.countVars
          r.nancols _ a2 hn)
      | ambiguous w =>
        exact absurd hn (fun hh =>
          setNanTotals_error_ambiguous df (r.current_i, description) r.countVars
            r.nancols _ w hh)
    | ok c4 =>
      rw [hn] at h
      simp at h

lemma update_error_ambiguous (r : NReporter) (df : DataFrame) (description : String)
    (w : String) (h : r.update df description = .error (.ambiguous w)) :
    ∃ v ∈ r.groupby, v ∈ df.cols ∧ v ∈ df.indexNames := by
  dsimp only [NReporter.update] at h
  cases hg : setGroupTotals df (r.current_i, description) r.countVars r.groupby
      (setTotal r.countVars (setRowZero r.countVars r.counts (r.current_i, description))
        (r.current_i, description) "rows" (df.nRows : Int)) with
  | error e =>
    rw [hg] at h
    cases e with
    | argument a =>
      simp at h
    | ambiguous w2 =>
      exact setGroupTotals_error_ambiguous df (r.current_i, description) r.countVars
        r.groupby _ w2 hg
  | ok c3 =>
    rw [hg] at h
    dsimp only at h
    cases hn : setNanTotals df (r.current_i, description) r.countVars r.nancols c3 with
    | error e =>
      rw [hn] at h
      cases e with
      | argument a =>
        simp at h
      | ambiguous w2 =>
        exact absurd hn (fun hh =>
          setNanTotals_error_ambiguous df (r.current_i, description) r.countVars
            r.nancols _ w2 hh)
    | ok c4 =>
      rw [hn] at h
      simp at h

/-- C4 (counterexample to the claim as stated): the group variable `"a"`
is among the dataframe column names (and among its index-level names), so
the claim promises completion without raising; the program instead raises
the pandas ambiguity `ValueError` from `df.groupby("a")` — and not an
`ArgumentValueError`. -/
theorem update_error_counterexample :
    (NReporter.init ["a"] []).update ⟨["a"], ["a"], [([3], [some 7])]⟩ "step" =
      .error (.ambiguous "a") ∧
    ("a" ∈ (⟨["a"], ["a"], [([3], [some 7])]⟩ : DataFrame).cols ∨
      "a" ∈ (⟨["a"], ["a"], [([3], [some 7])]⟩ : DataFrame).indexNames) ∧
    (∀ a : ArgumentValueError, ReporterError.ambiguous "a" ≠ .argument a) :=
  ⟨rfl, by decide, fun a h => by cases h⟩

/-- C4 (amended): `update(df, description)` completes without raising iff
every configured group variable is a column name or an index-level name of
`df` but not both, and every configured NaN column is a column name.  When
it raises `ArgumentValueError`, some group variable is neither a column
nor an index-level name, or some NaN column is not a column; when it
raises the pandas ambiguity `ValueError`, some group variable is both a
column and an index-level name.  When no group variable is ambiguous,
`ArgumentValueError` is raised exactly when some group variable is neither
a column nor an index-level name or some NaN column is not a column — the
claim as originally stated. -/
theorem update_raises_spec (r : NReporter) (df : DataFrame) (description : String) :
    ((∃ out, r.update df description = .ok out) ↔
      (∀ v ∈ r.groupby,
        (v ∈ df.cols ∨ v ∈ df.indexNames) ∧ ¬ (v ∈ df.cols ∧ v ∈ df.indexNames)) ∧
        (∀ v ∈ r.nancols, v ∈ df.cols)) ∧
    ((∃ a, r.update df description = .error (.argument a)) →
      (∃ v ∈ r.groupby, ¬ (v ∈ df.cols ∨ v ∈ df.indexNames)) ∨
        (∃ v ∈ r.nancols, v ∉ df.cols)) ∧
    ((∃ w, r.update df description = .error (.ambiguous w)) →
      ∃ v ∈ r.groupby, v ∈ df.cols ∧ v ∈ df.indexNames) ∧
    ((∀ v ∈ r.groupby, ¬ (v ∈ df.cols ∧ v ∈ df.indexNames)) →
      ((∃ a, r.update df description = .error (.argument a)) ↔
        (∃ v ∈ r.groupby, ¬ (v ∈ df.cols ∨ v ∈ df.indexNames)) ∨
          (∃ v ∈ r.nancols, v ∉ df.cols))) := by
  have hok := update_ok_iff r df description
  have hargonly : ∀ a, r.update df description = .error (.argument a) →
      (∃ v ∈ r.groupby, ¬ (v ∈ df.cols ∨ v ∈ df.indexNames)) ∨
        (∃ v ∈ r.nancols, v ∉ df.cols) := by
    intro a ha
    rcases update_error_argument r df description a ha with hl | hr
    · left
      obtain ⟨v, hv, hnv⟩ := hl
      exact ⟨v, hv, by simpa [List.mem_append] using hnv⟩
    · exact Or.inr hr
  refine ⟨?_, ?_, ?_, ?_⟩
  · rw [hok]
    simp [List.mem_append]
  · rintro ⟨a, ha⟩
    exact hargonly a ha
  · rintro ⟨w, hw⟩
    exact update_error_ambiguous r df description w hw
  · intro hnamb
    constructor
    · rintro ⟨a, ha⟩
      exact hargonly a ha
    · intro hbad
      have hnotok : ¬ ∃ out, r.update df description = .ok out := by
        rw [hok]
        rintro ⟨hA, hB⟩
        rcases hbad with ⟨v, hv, hnv⟩ | ⟨v, hv, hnv⟩
        · exact hnv (by simpa [List.mem_append] using (hA v hv).1)
        · exact hnv (hB v hv)
      cases hu : r.update df description with
      | ok out => exact absurd ⟨out, hu⟩ hnotok
      | error e =>
        cases e with
        | argument a => exact ⟨a, rfl⟩
        | ambiguous w =>
          exact absurd (update_error_ambiguous r df description w hu)
            (fun hh => by
              obtain ⟨v, hv, hav⟩ := hh
              exact hnamb v hv hav)

theorem update_raises_spec_witness :
    (∃ out, wr0.update wdf1 "s1" = .ok out) ∧
    ((∀ v ∈ wr0.groupby,
        (v ∈ wdf1.cols ∨ v ∈ wdf1.indexNames) ∧ ¬ (v ∈ wdf1.cols ∧ v ∈ wdf1.indexNames)) ∧
      (∀ v ∈ wr0.nancols, v ∈ wdf1.cols)) :=
  ⟨(update_raises_spec wr0 wdf1 "s1").1.mpr ⟨by decide, by decide⟩,
    ⟨by decide, by decide⟩⟩

lemma setRowZero_cons_ne (vars : List String) (row0 : CRow) (rest : List CRow) (key : CKey)
    (h : row0.1 ≠ key) :
    ∃ rest1, setRowZero vars (row0 :: rest) key = row0 :: rest1 := by
  unfold setRowZero
  by_cases hany : (row0 :: rest).any (fun row => row.1 = key)
  · refine ⟨rest.map (fun row =>
      if row.1 = key then (row.1, row.2.map (fun _ => ((0 : Int), some (0 : Int)))) else row), ?_⟩
    rw [if_pos hany, List.map_cons, if_neg h]
  · refine ⟨rest ++ [(key, vars.map (fun _ => ((0 : Int), some (0 : Int))))], ?_⟩
    rw [if_neg hany, List.cons_append]

lemma setTotal_cons_ne (vars : List String) (row0 : CRow) (rest : List CRow) (key : CKey)
    (v : String) (val : Int) (h : row0.1 ≠ key) :
    setTotal vars (row0 :: rest) key v val = row0 :: setTotal vars rest key v val := by
  unfold setTotal
  rw [List.map_cons, if_neg h]

lemma setGroupTotals_head (df : DataFrame) (key : CKey) (vars : List String) :
    ∀ (vs : List String) (row0 : CRow) (rest out : List CRow), row0.1 ≠ key →
      setGroupTotals df key vars vs (row0 :: rest) = .ok out →
      ∃ rest2, out = row0 :: rest2 := by
  intro vs
  induction vs with
  | nil =>
    intro row0 rest out h hok
    exact ⟨rest, by simpa [setGroupTotals] using hok.symm⟩
  | cons v vs ih =>
    intro row0 rest out h hok
    rw [setGroupTotals_cons] at hok
    by_cases hv : v ∈ df.cols ++ df.indexNames
    · rw [if_pos hv] at hok
      by_cases hamb : v ∈ df.cols ∧ v ∈ df.indexNames
      · rw [if_pos hamb] at hok
        exact absurd hok (by simp)
      · rw [if_neg hamb, setTotal_cons_ne vars row0 rest key v _ h] at hok
        exact ih row0 _ out h hok
    · rw [if_neg hv] at hok
      exact absurd hok (by simp)

lemma setNanTotals_head (df : DataFrame) (key : CKey) (vars : List String) :
    ∀ (vs : List String) (row0 : CRow) (rest out : List CRow), row0.1 ≠ key →
      setNanTotals df key vars vs (row0 :: rest) = .ok out →
      ∃ rest2, out = row0 :: rest2 := by
  intro vs
  induction vs with
  | nil =>
    intro row0 rest out h hok
    exact ⟨rest, by simpa [setNanTotals] using hok.symm⟩
  | cons v vs ih =>
    intro row0 rest out h hok
    rw [setNanTotals_cons] at hok
    by_cases hv : v ∈ df.cols
    · rw [if_pos hv, setTotal_cons_ne vars row0 rest key v _ h] at hok
      exact ih row0 _ out h hok
    · rw [if_neg hv] at hok
      exact absurd hok (by simp)

/-- C3 (counterexample to the claim as stated): after the very first
`update`, the delta entry of row 0 (the Init row) is NaN (`none`), not
zero: the pandas `diff()` writes NaN into the first row of every delta
column. -/
theorem row0_delta_after_update_counterexample :
    (((NReporter.init [] []).update ⟨[], ["i"], []⟩ "step").map
        (fun p => dEntry p.1.counts 0 0)) = .ok none ∧
      (none : Option Int) ≠ some 0 :=
  ⟨rfl, by decide⟩

/-- C3 (amended): row 0 of the counts table, indexed `(0, "Init")`, has
all-zero entries (counts and deltas) after construction; after every
successful `update` its count entries are still all zero, but its delta
entries hold NaN (`none`), not zero. -/
theorem init_and_update_row0 (G C : List String) (r r' : NReporter) (df df' : DataFrame)
    (description : String) :
    ((NReporter.init G C).counts.getD 0 default =
      ((0, "Init"), ("rows" :: (G ++ C)).map (fun _ => ((0 : Int), some (0 : Int))))) ∧
    (∀ row0 rest, r.counts = row0 :: rest → row0.1 = (0, "Init") → 1 ≤ r.current_i →
      (∀ c ∈ row0.2, c.1 = 0) →
      r.update df description = .ok (r', df') →
      r'.counts.getD 0 default =
        ((0, "Init"), row0.2.map (fun _ => ((0 : Int), (none : Option Int))))) := by
  constructor
  · rfl
  · intro row0 rest hcounts hkey hcur hzero hupd
    have hne : row0.1 ≠ (r.current_i, description) := by
      rw [hkey]
      intro hh
      have : (0 : Nat) = r.current_i := congrArg Prod.fst hh
      omega
    dsimp only [NReporter.update] at hupd
    rw [hcounts] at hupd
    obtain ⟨rest1, hrz⟩ := setRowZero_cons_ne r.countVars row0 rest (r.current_i, description) hne
    rw [hrz, setTotal_cons_ne r.countVars row0 rest1 (r.current_i, description) "rows"
      (df.nRows : Int) hne] at hupd
    cases hg : setGroupTotals df (r.current_i, description) r.countVars r.groupby
        (row0 :: setTotal r.countVars rest1 (r.current_i, description) "rows" (df.nRows : Int)) with
    | error e => rw [hg] at hupd; exact absurd hupd (by simp)
    | ok c3 =>
      rw [hg] at hupd
      dsimp only at hupd
      obtain ⟨rest2, hc3⟩ := setGroupTotals_head df (r.current_i, description) r.countVars
        r.groupby row0 _ c3 hne hg
      cases hn : setNanTotals df (r.current_i, description) r.countVars r.nancols c3 with
      | error e => rw [hn] at hupd; exact absurd hupd (by simp)
      | ok c4 =>
        rw [hn] at hupd
        dsimp only at hupd
        obtain ⟨rest3, hc4⟩ := setNanTotals_head df (r.current_i, description) r.countVars
          r.nancols row0 rest2 c4 hne (by rw [← hc3]; exact hn)
        simp only [Except.ok.injEq, Prod.mk.injEq] at hupd
        have hcounts' : r'.counts = withDeltas (row0 :: rest3) := by
          rw [← hupd.1]
          rw [hc4]
        rw [hcounts']
        have hhead : (withDeltas (row0 :: rest3)).getD 0 default =
            (row0.1, row0.2.map (fun c => (c.1, (none : Option Int)))) := by
          simp [withDeltas]
        rw [hhead, hkey]
        refine congrArg _ ?_
        exact List.map_congr_left (fun c hc => by rw [hzero c hc])

theorem init_and_update_row0_witness :
    (wr0.counts = ((0, "Init"),
        [((0 : Int), some (0 : Int)), (0, some 0), (0, some 0)]) :: []) ∧
    (1 ≤ wr0.current_i) ∧
    (∀ c ∈ [((0 : Int), some (0 : Int)), ((0 : Int), some (0 : Int)),
        ((0 : Int), some (0 : Int))], c.1 = 0) ∧
    wr0.update wdf1 "s1" = .ok (wr1, wdf1) ∧
    wr1.counts.getD 0 default =
      ((0, "Init"),
        ([((0 : Int), some (0 : Int)), (0, some 0), (0, some 0)] : List CCell).map
          (fun _ => ((0 : Int), (none : Option Int)))) :=
  ⟨by decide, by decide, by decide, rfl,
    (init_and_update_row0 ["a"] ["b"] wr0 wr1 wdf1 wdf1 "s1").2
      ((0, "Init"), [((0 : Int), some (0 : Int)), (0, some 0), (0, some 0)]) []
      (by decide) (by decide) (by decide) (by decide) rfl⟩

theorem update_delta_invariant_witness :
    wr0.update wdf1 "s1" = .ok (wr1, wdf1) ∧ 0 + 1 < wr1.counts.length ∧
      0 < ((wr1.counts.getD 0 default).2).length ∧
      0 < ((wr1.counts.getD (0 + 1) default).2).length ∧
      dEntry wr1.counts (0 + 1) 0 = some (nEntry wr1.counts (0 + 1) 0 - nEntry wr1.counts 0 0) :=
  ⟨rfl, by decide, by decide, by decide,
    update_delta_invariant wr0 wr1 wdf1 wdf1 "s1" rfl 0 0 (by decide) (by decide) (by decide)⟩

/-- C5: `apply_query` is exactly `update` applied to the query-filtered
dataset (`df.query(query_str).pipe(self.update, description)`), the query
string standing in as the step description when none is given; and the
filtered dataset keeps the columns and index but only the rows satisfying
the query predicate. -/
theorem apply_query_spec (r : NReporter) (df : DataFrame) (p : DRow → Bool)
    (query_str : String) (d : String) :
    r.apply_query df p query_str (some d) = r.update (df.query p) d ∧
    r.apply_query df p query_str none = r.update (df.query p) query_str ∧
    (df.query p).rows = df.rows.filter p ∧
    (df.query p).cols = df.cols ∧ (df.query p).indexNames = df.indexNames :=
  ⟨rfl, rfl, rfl, rfl, rfl⟩

lemma renderCells_eq (l : List CCell) (cells : List (String × String))
    (h : l.mapM (fun (c : CCell) => c.2.map (fun d => (toString c.1, formatSigned d))) = some cells) :
    cells = l.map (fun c => (toString c.1, formatSigned (c.2.getD 0))) := by
  induction l generalizing cells with
  | nil =>
    rw [List.mapM_nil] at h
    exact (Option.some_inj.mp h).symm
  | cons c l ih =>
    rw [List.mapM_cons] at h
    cases hc : c.2 with
    | none => rw [hc] at h; simp at h
    | some d =>
      rw [hc] at h
      cases hrest : l.mapM (fun (c : CCell) => c.2.map (fun d => (toString c.1, formatSigned d))) with
      | none => rw [hrest] at h; simp at h
      | some cs =>
        rw [hrest] at h
        simp only [Option.map_some', Option.bind_eq_bind, Option.some_bind, Option.pure_def,
          Option.some.injEq] at h
        rw [← h, List.map_cons, hc, ih cs hrest]
        rfl

lemma renderRow_eq (row : CRow) (out : String × List (String × String))
    (h : renderRow row = some out) :
    out = (row.1.2, row.2.map (fun c => (toString c.1, formatSigned (c.2.getD 0)))) := by
  unfold renderRow at h
  cases hm : row.2.mapM (fun (c : CCell) => c.2.map (fun d => (toString c.1, formatSigned d))) with
  | none => rw [hm] at h; simp at h
  | some cells =>
    rw [hm] at h
    simp only [Option.map_some', Option.some.injEq] at h
    rw [← h, renderCells_eq row.2 cells hm]

lemma mapM_renderRow_eq (l : List CRow) (t : List (String × List (String × String)))
    (h : l.mapM renderRow = some t) :
    t = l.map (fun row =>
      (row.1.2, row.2.map (fun c => (toString c.1, formatSigned (c.2.getD 0))))) := by
  induction l generalizing t with
  | nil =>
    rw [List.mapM_nil] at h
    exact (Option.some_inj.mp h).symm
  | cons row l ih =>
    rw [List.mapM_cons] at h
    cases hr : renderRow row with
    | none => rw [hr] at h; simp at h
    | some out =>
      rw [hr] at h
      cases hrest : l.mapM renderRow with
      | none => rw [hrest] at h; simp at h
      | some ts =>
        rw [hrest] at h
        simp only [Option.bind_eq_bind, Option.some_bind, Option.pure_def,
          Option.some.injEq] at h
        rw [← h, List.map_cons, ih ts hrest, renderRow_eq row out hr]

/-- C7: a successful `report()` renders exactly the counts table without
the Init row (`iloc[1:, :]`, then the step level dropped), every count
entry rendered as a decimal integer and every delta entry through the
signed format `"{:+d}"`, which always carries an explicit `+` or `-`
sign. -/
theorem report_renders (r : NReporter) (t : List (String × List (String × String)))
    (h : r.report = some t) :
    t = (r.counts.drop 1).map (fun row =>
        (row.1.2, row.2.map (fun c => (toString c.1, formatSigned (c.2.getD 0))))) ∧
    t.length = r.counts.length - 1 ∧
    (∀ n : Int, (0 ≤ n → formatSigned n = "+" ++ toString n) ∧
      (n < 0 → formatSigned n = "-" ++ toString (-n))) := by
  unfold NReporter.report at h
  have ht := mapM_renderRow_eq (r.counts.drop 1) t h
  refine ⟨ht, ?_, ?_⟩
  · rw [ht, List.length_map, List.length_drop]
  · intro n
    constructor
    · intro hn
      unfold formatSigned
      rw [if_pos hn]
    · intro hn
      unfold formatSigned
      rw [if_neg (by omega)]

theorem report_renders_witness :
    wr1.report = some [("s1", [("3", "+3"), ("1", "+1"), ("2", "+2")])] ∧
    ([("s1", [("3", "+3"), ("1", "+1"), ("2", "+2")])] =
      (wr1.counts.drop 1).map (fun row =>
        (row.1.2, row.2.map (fun c => (toString c.1, formatSigned (c.2.getD 0))))) ∧
      [("s1", [("3", "+3"), ("1", "+1"), ("2", "+2")])].length = wr1.counts.length - 1 ∧
      (∀ n : Int, (0 ≤ n → formatSigned n = "+" ++ toString n) ∧
        (n < 0 → formatSigned n = "-" ++ toString (-n)))) :=
  ⟨rfl, report_renders wr1 [("s1", [("3", "+3"), ("1", "+1"), ("2", "+2")])] rfl⟩

lemma update_ok_parts (r r' : NReporter) (df df' : DataFrame) (description : String)
    (h : r.update df description = .ok (r', df')) :
    r'.groupby = r.groupby ∧ r'.nancols = r.nancols ∧ r'.countVars = r.countVars ∧
      r'.current_i = r.current_i + 1 ∧ df' = df := by
  dsimp only [NReporter.update] at h
  cases hg : setGroupTotals df (r.current_i, description) r.countVars r.groupby
      (setTotal r.countVars (setRowZero r.countVars r.counts (r.current_i, description))
        (r.current_i, description) "rows" (df.nRows : Int)) with
  | error e => rw [hg] at h; exact absurd h (by simp)
  | ok c3 =>
    rw [hg] at h
    dsimp only at h
    cases hn : setNanTotals df (r.current_i, description) r.countVars r.nancols c3 with
    | error e => rw [hn] at h; exact absurd h (by simp)
    | ok c4 =>
      rw [hn] at h
      simp only [Except.ok.injEq, Prod.mk.injEq] at h
      refine ⟨?_, ?_, ?_, ?_, h.2.symm⟩ <;> rw [← h.1]

/-- C9: a successful `update` returns the very dataframe it was given,
unmodified. -/
theorem update_returns_input (r r' : NReporter) (df df' : DataFrame) (description : String)
    (h : r.update df description = .ok (r', df')) : df' = df :=
  (update_ok_parts r r' df df' description h).2.2.2.2

theorem update_returns_input_witness :
    wr0.update wdf1 "s1" = .ok (wr1, wdf1) ∧
      (((wr0.update wdf1 "s1").toOption).getD (wr0, wdf1)).2 = wdf1 :=
  ⟨rfl, update_returns_input wr0 wr1 wdf1
    (((wr0.update wdf1 "s1").toOption).getD (wr0, wdf1)).2 "s1" rfl⟩

lemma apply_mask_ok_reporter (r r' : NReporter) (df df' : DataFrame) (p : DRow → Bool)
    (expr : String) (m : MaskArg)
    (h : r.apply_mask df p expr m = .ok (r', df')) :
    ∃ df2, r.update (df.mask p (m.expand df))
        (expr ++ " (applied to " ++ m.pyRepr ++ ")") = .ok (r', df2) := by
  dsimp only [NReporter.apply_mask] at h
  cases hc : checkMaskColumns (df.cols ++ ["*", "all"]) (m.expand df) with
  | error e => rw [hc] at h; exact absurd h (by simp)
  | ok u =>
    rw [hc] at h
    dsimp only at h
    cases hu : r.update (df.mask p (m.expand df))
        (expr ++ " (applied to " ++ m.pyRepr ++ ")") with
    | error e => rw [hu] at h; exact absurd h (by simp)
    | ok q =>
      rw [hu] at h
      simp only [Except.ok.injEq, Prod.mk.injEq] at h
      refine ⟨q.2, ?_⟩
      rw [show r' = q.1 from h.1.symm]

/-- C8: the counts table of a freshly constructed reporter has, per tracked
variable — `"rows"` first, then the group variables, then the NaN columns,
in order — an `N` column and a `𝝙` column, in that order
(`MultiIndex.from_product`); rows are keyed by `(step, description)` pairs
(the type `CKey`); and `update`, `apply_query` and `apply_mask` all
preserve this column structure. -/
theorem columns_structure (G C : List String) (r ru rq rm : NReporter)
    (df dfu dfq dfm : DataFrame) (description : String) (p q : DRow → Bool)
    (query_str : String) (d : Option String) (expr : String) (m : MaskArg) :
    (NReporter.init G C).columns =
      ("rows" :: (G ++ C)).flatMap (fun v => [(v, "N"), (v, "𝝙")]) ∧
    (r.update df description = .ok (ru, dfu) → ru.columns = r.columns) ∧
    (r.apply_query df p query_str d = .ok (rq, dfq) → rq.columns = r.columns) ∧
    (r.apply_mask df q expr m = .ok (rm, dfm) → rm.columns = r.columns) := by
  refine ⟨rfl, ?_, ?_, ?_⟩
  · intro h
    unfold NReporter.columns
    rw [(update_ok_parts r ru df dfu description h).2.2.1]
  · intro h
    unfold NReporter.columns
    rw [(update_ok_parts r rq (df.query p) dfq ((d.getD query_str)) h).2.2.1]
  · intro h
    obtain ⟨df2, hu⟩ := apply_mask_ok_reporter r rm df dfm q expr m h
    unfold NReporter.columns
    rw [(update_ok_parts r rm (df.mask q (m.expand df)) df2 _ hu).2.2.1]

theorem columns_structure_witness :
    wr0.update wdf1 "s1" = .ok (wr1, wdf1) ∧ wr1.columns = wr0.columns :=
  ⟨rfl,
    (columns_structure ["a"] ["b"] wr0 wr1 wr1 wr1 wdf1 wdf1 wdf1 wdf1 "s1"
      (fun _ => true) (fun _ => true) "q" none "e" (.scalar "all")).2.1 rfl⟩

/-- A dataframe with a duplicated index label: both rows carry the label
`[0]`. -/
def wdfDup : DataFrame := ⟨["a"], ["idx"], [([0], [some 1]), ([0], [some 2])]⟩

/-- The predicate embedding the expression string `"a == 1"` on a
one-column dataframe. -/
def wpEq1 : DRow → Bool := fun r => r.2.getD 0 none == some 1

/-- C6 (counterexample to the claim as stated): with a duplicated index
label, `apply_mask` leaves the row `([0], [2])` untouched even though it
does not satisfy the expression, because the row shares its index label
with a satisfying row and `df.index.difference(valid_rows)` works on
labels.  The claim demands that entry be NaN. -/
theorem apply_mask_counterexample :
    (((NReporter.init [] []).apply_mask wdfDup wpEq1 "a == 1" (.scalar "all")).map
        (fun q => q.2.rows.getD 1 ([], []))) = .ok ([0], [some 2]) ∧
      wpEq1 ([0], [some 2]) = false ∧ (some 2 : Cell) ≠ (none : Cell) :=
  ⟨rfl, rfl, by decide⟩

lemma checkMaskColumns_ok (valid : List String) (vs : List String)
    (h : ∀ c ∈ vs, c ∈ valid) : checkMaskColumns valid vs = .ok () := by
  induction vs with
  | nil => rfl
  | cons c cs ih =>
    unfold checkMaskColumns
    rw [show check_arg_value "mask_columns" c valid = .ok () from by
      unfold check_arg_value; rw [if_pos (h c (by simp))]]
    exact ih (fun w hw => h w (by simp [hw]))

/-- C6 (amended): when every expanded mask column passes validation
(`list(df.columns) + ["*", "all"]`), `apply_mask` calls `update` exactly
once on the masked dataset and returns it; the masked dataset has the same
columns, index names and row count as `df`; a row whose index label occurs
among the labels of rows satisfying the expression is unchanged (even if
the row itself does not satisfy the expression); every other row keeps its
index label, has NaN in every mask column, and is unchanged elsewhere.
With unique index labels the masked rows are exactly those not satisfying
the expression. -/
theorem apply_mask_masks_by_label (r : NReporter) (df : DataFrame) (p : DRow → Bool)
    (expr : String) (m : MaskArg)
    (hc : ∀ c ∈ m.expand df, c ∈ df.cols ++ ["*", "all"]) :
    r.apply_mask df p expr m =
      (r.update (df.mask p (m.expand df)) (expr ++ " (applied to " ++ m.pyRepr ++ ")")).map
        (fun q => (q.1, df.mask p (m.expand df))) ∧
    (df.mask p (m.expand df)).nRows = df.nRows ∧
    (df.mask p (m.expand df)).cols = df.cols ∧
    (df.mask p (m.expand df)).indexNames = df.indexNames ∧
    (∀ j, j < df.rows.length →
      ((df.rows.getD j ([], [])).1 ∈ df.validLabels p →
        (df.mask p (m.expand df)).rows.getD j ([], []) = df.rows.getD j ([], [])) ∧
      ((df.rows.getD j ([], [])).1 ∉ df.validLabels p →
        ((df.mask p (m.expand df)).rows.getD j ([], [])).1 = (df.rows.getD j ([], [])).1 ∧
        ∀ k, k < df.cols.length → k < (df.rows.getD j ([], [])).2.length →
          ((df.mask p (m.expand df)).rows.getD j ([], [])).2.getD k none =
            (if df.cols.getD k "" ∈ m.expand df then none
              else (df.rows.getD j ([], [])).2.getD k none))) := by
  refine ⟨?_, by simp [DataFrame.mask, DataFrame.nRows], rfl, rfl, ?_⟩
  · dsimp only [NReporter.apply_mask]
    rw [checkMaskColumns_ok (df.cols ++ ["*", "all"]) (m.expand df) hc]
    dsimp only
    cases hu : r.update (df.mask p (m.expand df))
        (expr ++ " (applied to " ++ m.pyRepr ++ ")") with
    | error e => rfl
    | ok q => rfl
  · intro j hj
    have hget : (df.mask p (m.expand df)).rows.getD j ([], []) =
        (if (df.rows.getD j ([], [])).1 ∈ df.validLabels p then df.rows.getD j ([], [])
          else df.maskRow (m.expand df) (df.rows.getD j ([], []))) := by
      show (df.rows.map (fun r =>
          if r.1 ∈ df.validLabels p then r else df.maskRow (m.expand df) r)).getD j ([], []) = _
      exact map_getD _ df.rows j ([], []) ([], []) hj
    constructor
    · intro hvalid
      rw [hget, if_pos hvalid]
    · intro hinvalid
      rw [hget, if_neg hinvalid]
      constructor
      · rfl
      · intro k hk1 hk2
        show (List.zipWith (fun name cell => if name ∈ m.expand df then none else cell)
            df.cols (df.rows.getD j ([], [])).2).getD k none = _
        rw [zipWith_getD (fun name cell => if name ∈ m.expand df then none else cell)
          df.cols (df.rows.getD j ([], [])).2 k "" none none hk1 hk2]

theorem apply_mask_masks_by_label_witness :
    (∀ c ∈ (MaskArg.scalar "all").expand wdf1, c ∈ wdf1.cols ++ ["*", "all"]) ∧
    (NReporter.init [] []).apply_mask wdf1 wpEq1 "a == 1" (.scalar "all") =
      ((NReporter.init [] []).update (wdf1.mask wpEq1 ((MaskArg.scalar "all").expand wdf1))
          ("a == 1" ++ " (applied to " ++ (MaskArg.scalar "all").pyRepr ++ ")")).map
        (fun q => (q.1, wdf1.mask wpEq1 ((MaskArg.scalar "all").expand wdf1))) :=
  ⟨by decide,
    (apply_mask_masks_by_label (NReporter.init [] []) wdf1 wpEq1 "a == 1" (.scalar "all")
      (by decide)).1⟩

/-- The heap of dataframe objects: Python object identity is modelled by a
position in this store. -/
abbrev Store := List DataFrame

/-- Reading the dataframe object a reference points at. -/
def readRef (s : Store) (i : Nat) : DataFrame := s.getD i default

/-- Embeds `apply_query` at the object level: `df.query(...)` produces a fresh
dataframe object (pandas returns a new frame), which `update` receives and
returns; the object passed in is never written. -/
def applyQueryRef (r : NReporter) (s : Store) (i : Nat) (p : DRow → Bool)
    (query_str : String) (description : Option String) :
    Except ReporterError (NReporter × Store × Nat) :=
  let filtered := (readRef s i).query p
  match r.update filtered (description.getD query_str) with
  | .error e => .error e
  | .ok (r2, _) => .ok (r2, s ++ [filtered], s.length)

/-- Embeds `apply_mask` at the object level: the assignment
`df.loc[invalid_rows, mask_columns] = np.nan` writes into the dataframe
object in place, and `return df` hands back the same reference. -/
def applyMaskRef (r : NReporter) (s : Store) (i : Nat) (p : DRow → Bool)
    (expr : String) (mask_columns : MaskArg) :
    Except ReporterError (NReporter × Store × Nat) :=
  let df := readRef s i
  match checkMaskColumns (df.cols ++ ["*", "all"]) (mask_columns.expand df) with
  | .error e => .error (.argument e)
  | .ok _ =>
    let masked := df.mask p (mask_columns.expand df)
    match r.update masked (expr ++ " (applied to " ++ mask_columns.pyRepr ++ ")") with
    | .error e => .error e
    | .ok (r2, _) => .ok (r2, s.set i masked, i)

/-- C10 (counterexample to the claim as stated): the claim promises NaN in
the mask columns of every row not satisfying the expression; with the
duplicated index label of `wdfDup`, after the in-place `apply_mask` the
caller object still holds the untouched value `2` in its second row even
though that row fails the expression — masking is by index label, the same
divergence that corrects C6. -/
theorem apply_mask_in_place_counterexample :
    ((applyMaskRef (NReporter.init [] []) [wdfDup] 0 wpEq1 "a == 1" (.scalar "all")).map
        (fun q => (readRef q.2.1 0).rows.getD 1 ([], []))) = .ok ([0], [some 2]) ∧
      wpEq1 ([0], [some 2]) = false ∧ (some 2 : Cell) ≠ (none : Cell) :=
  ⟨rfl, rfl, by decide⟩

/-- C10 (amended): a successful `apply_mask` returns the very dataframe
object it was given — the same reference — and that object now holds the
masked data: NaN written into the mask columns of the rows whose index
label does not occur among the labels of rows satisfying the expression
(with unique labels, exactly the rows not satisfying it); `apply_query`,
by contrast, leaves the object it was given untouched and returns a
different, freshly allocated object. -/
theorem apply_mask_in_place (r r2 : NReporter) (s s2 : Store) (i j : Nat) (p : DRow → Bool)
    (expr : String) (m : MaskArg) (query_str : String) (d : Option String)
    (hi : i < s.length)
    (hm : applyMaskRef r s i p expr m = .ok (r2, s2, j)) :
    j = i ∧
    readRef s2 i = (readRef s i).mask p (m.expand (readRef s i)) ∧
    (∀ r3 s3 j3, applyQueryRef r s i p query_str d = .ok (r3, s3, j3) →
      readRef s3 i = readRef s i ∧ j3 ≠ i) := by
  dsimp only [applyMaskRef] at hm
  cases hc : checkMaskColumns ((readRef s i).cols ++ ["*", "all"]) (m.expand (readRef s i)) with
  | error e => rw [hc] at hm; exact absurd hm (by simp)
  | ok u =>
    rw [hc] at hm
    dsimp only at hm
    cases hu : r.update ((readRef s i).mask p (m.expand (readRef s i)))
        (expr ++ " (applied to " ++ m.pyRepr ++ ")") with
    | error e => rw [hu] at hm; exact absurd hm (by simp)
    | ok q =>
      rw [hu] at hm
      simp only [Except.ok.injEq, Prod.mk.injEq] at hm
      have hs2 : s2 = s.set i ((readRef s i).mask p (m.expand (readRef s i))) := hm.2.1.symm
      refine ⟨hm.2.2.symm, ?_, ?_⟩
      · rw [hs2]
        unfold readRef
        rw [List.getD_eq_getElem?_getD, List.getElem?_set_self (by simpa using hi)]
        rfl
      · intro r3 s3 j3 hq
        dsimp only [applyQueryRef] at hq
        cases hq2 : r.update ((readRef s i).query p) (d.getD query_str) with
        | error e => rw [hq2] at hq; exact absurd hq (by simp)
        | ok q2 =>
          rw [hq2] at hq
          simp only [Except.ok.injEq, Prod.mk.injEq] at hq
          have hs3 : s3 = s ++ [(readRef s i).query p] := hq.2.1.symm
          have hj3 : j3 = s.length := hq.2.2.symm
          constructor
          · rw [hs3]
            unfold readRef
            rw [List.getD_eq_getElem?_getD, List.getElem?_append_left hi,
              ← List.getD_eq_getElem?_getD]
          · omega

/-- The result of the concrete `applyMaskRef` call used as witness. -/
def wmaskRes : NReporter × Store × Nat :=
  ((applyMaskRef (NReporter.init [] []) [wdf1] 0 wpEq1 "a == 1" (.scalar "all")).toOption).getD
    (NReporter.init [] [], [], 0)

theorem apply_mask_in_place_witness :
    0 < ([wdf1] : Store).length ∧
    applyMaskRef (NReporter.init [] []) [wdf1] 0 wpEq1 "a == 1" (.scalar "all") =
      .ok (wmaskRes.1, wmaskRes.2.1, wmaskRes.2.2) ∧
    (wmaskRes.2.2 = 0 ∧
      readRef wmaskRes.2.1 0 =
        (readRef [wdf1] 0).mask wpEq1 ((MaskArg.scalar "all").expand (readRef [wdf1] 0)) ∧
      (∀ r3 s3 j3, applyQueryRef (NReporter.init [] []) [wdf1] 0 wpEq1 "q" none =
          .ok (r3, s3, j3) → readRef s3 0 = readRef [wdf1] 0 ∧ j3 ≠ 0)) :=
  ⟨by decide, rfl,
    apply_mask_in_place (NReporter.init [] []) wmaskRes.1 [wdf1] wmaskRes.2.1 0 wmaskRes.2.2
      wpEq1 "a == 1" (.scalar "all") "q" none (by decide) rfl⟩

end NRep
